import Mathlib

/-!
Verification of the Graph Lifecycle Orchestrator of the Deployed-InfraMinds
repository, as a shallow embedding of `backend/agent.py` and
`backend/pipeline.py` in Lean 4.

Conventions of the embedding:
* Python dictionaries with string keys are association lists; dictionary
  values of heterogeneous type (`Dict[str, Any]`) are modelled by the small
  value universe `MVal`.
* Pydantic models (`Resource`, `Edge`, `GraphState` from `backend/schemas.py`)
  become structures with the same fields and defaults.  Timestamps and other
  wall-clock data are omitted: no claim mentions them.
* Generators that yield `(kind, message)` tuples and a terminal `GraphState`
  become functions returning an event list together with the terminal value.
* `stable_graph_hash` serializes a canonical structure (resources sorted by
  id with `metadata` excluded, edges sorted by the source/target/relation
  triple, keys in sorted order) and takes its SHA-256.  Both the sorted-key
  JSON dump and the digest are deterministic functions of the canonical
  structure, and the code compares digests only for equality, so the hash is
  modelled by the canonical structure itself: two graph states receive equal
  digests exactly when their canonical structures are equal.
-/

/-- Value universe for `Dict[str, Any]` fields (`properties`, `metadata`).
The cost runner stores strings and one string-to-string dictionary, so those
two shapes (plus numbers and booleans) suffice for every claim. -/
inductive MVal where
  | str (s : String)
  | num (n : Int)
  | boolean (b : Bool)
  | dict (kvs : List (String × String))
deriving DecidableEq, Repr

/-- Look a key up in an association-list dictionary (first binding wins;
the embedding keeps at most one binding per key). -/
def dictGet (kvs : List (String × MVal)) (k : String) : Option MVal :=
  (kvs.find? (fun kv => kv.1 == k)).map (·.2)

/-- Set a key in an association-list dictionary, as Python dict assignment:
replace the binding if the key is present (the embedding keeps at most one
binding per key), append it otherwise. -/
def dictSet : List (String × MVal) → String → MVal → List (String × MVal)
  | [], k, v => [(k, v)]
  | kv :: rest, k, v =>
    if kv.1 == k then (k, v) :: rest else kv :: dictSet rest k v

/-- `Resource` from `backend/schemas.py`: id, type, properties, optional
parent id, status (default "planned") and UI metadata. -/
structure Resource where
  id : String
  type : String
  properties : List (String × MVal) := []
  parent_id : Option String := none
  status : String := "planned"
  metadata : List (String × MVal) := []
deriving DecidableEq, Repr

/-- `Edge` from `backend/schemas.py`: source, target and relation
(default "connects_to"). -/
structure Edge where
  source : String
  target : String
  relation : String := "connects_to"
deriving DecidableEq, Repr

/-- `GraphState` from `backend/schemas.py`.  `graph_version` is the
uuid4 string the constructor draws by default; the embedding threads it
explicitly.  `graph_phase` is one of "intent", "reasoned",
"implementation" (default "implementation"). -/
structure GraphState where
  graph_phase : String := "implementation"
  graph_version : String := ""
  resources : List Resource := []
  edges : List Edge := []
  metadata : List (String × MVal) := []
  reasoning : Option String := none
deriving DecidableEq, Repr

/-! ## Canonical hash (`InfraAgent.stable_graph_hash`, agent.py 183-199) -/

/-- The per-resource dump used by `stable_graph_hash`:
`r.model_dump(exclude={'metadata'})`, i.e. every `Resource` field except
`metadata`. -/
structure ResourceCore where
  id : String
  type : String
  properties : List (String × MVal)
  parent_id : Option String
  status : String
deriving DecidableEq, Repr

/-- Dump a resource excluding its metadata. -/
def Resource.core (r : Resource) : ResourceCore :=
  { id := r.id, type := r.type, properties := r.properties,
    parent_id := r.parent_id, status := r.status }

/-- Sort key order on resource dumps: `key=lambda x: x["id"]`. -/
def resLe (a b : ResourceCore) : Prop := a.id ≤ b.id

instance : DecidableRel resLe := fun a b =>
  inferInstanceAs (Decidable (a.id ≤ b.id))

instance : IsTotal ResourceCore resLe := ⟨fun a b => le_total a.id b.id⟩

instance : IsTrans ResourceCore resLe := ⟨fun _ _ _ => le_trans⟩

/-- The triple sort key on edges: `(x["source"], x["target"], x["relation"])`
compared lexicographically, as Python compares tuples. -/
def Edge.key (e : Edge) : Lex (String × Lex (String × String)) :=
  toLex (e.source, toLex (e.target, e.relation))

/-- Sort order on edge dumps: lexicographic on the triple. -/
def edgeLe (a b : Edge) : Prop := a.key ≤ b.key

instance : DecidableRel edgeLe := fun a b =>
  inferInstanceAs (Decidable (a.key ≤ b.key))

instance : IsTotal Edge edgeLe := ⟨fun a b => le_total a.key b.key⟩

instance : IsTrans Edge edgeLe := ⟨fun _ _ _ => le_trans⟩

instance : IsAntisymm Edge edgeLe :=
  ⟨fun a b hab hba => by
    have h : a.key = b.key := le_antisymm hab hba
    have h0 : (a.source, toLex (a.target, a.relation))
        = (b.source, toLex (b.target, b.relation)) := toLex.injective h
    have h1 : a.source = b.source := congrArg Prod.fst h0
    have h2 : (a.target, a.relation) = (b.target, b.relation) :=
      toLex.injective (congrArg Prod.snd h0)
    cases a; cases b
    simp only [Prod.mk.injEq] at h1 h2
    simp [h1, h2.1, h2.2]⟩

/-- The canonical structure whose sorted-key serialization is digested by
`stable_graph_hash`: resources (metadata excluded) sorted by id, edges
sorted by the source/target/relation triple.  `graph_phase`,
`graph_version`, the graph-level `metadata` and `reasoning` do not occur
in it. -/
structure CanonicalGraph where
  resources : List ResourceCore
  edges : List Edge
deriving DecidableEq, Repr

/-- `InfraAgent.stable_graph_hash` (agent.py 183-199), modelled up to the
injective final serialize-and-digest step (see the file header): the result
is the canonical structure.  Python's `sorted` is a stable sort; a stable
insertion sort realizes it. -/
def stable_graph_hash (g : GraphState) : CanonicalGraph :=
  { resources := (g.resources.map Resource.core).insertionSort resLe,
    edges := g.edges.insertionSort edgeLe }

/-- Strict version of the resource order, used to recover antisymmetry on
lists whose ids are pairwise distinct. -/
def resLt (a b : ResourceCore) : Prop := a.id < b.id

instance : IsAntisymm ResourceCore resLt :=
  ⟨fun a b hab hba => absurd (lt_trans hab hba) (lt_irrefl _)⟩

/-! Concrete graph states used by the hash witnesses. -/

/-- A semantic compute resource, as produced by the intent phase. -/
def webResource : Resource :=
  { id := "web", type := "compute_service",
    properties := [("exposure", MVal.str "public")] }

/-- A semantic database resource, as produced by the intent phase. -/
def dbResource : Resource :=
  { id := "db", type := "relational_database" }

/-- A two-resource reasoned graph with a connectivity and a containment
edge. -/
def c2GraphA : GraphState :=
  { graph_phase := "reasoned", graph_version := "version-a",
    resources := [webResource, dbResource],
    edges := [{ source := "web", target := "db", relation := "connects_to" },
              { source := "vpc", target := "web", relation := "contains" }] }

/-- `c2GraphA` after reordering resources and edges, rewriting resource
metadata and graph metadata, and drawing a fresh `graph_version`. -/
def c2GraphB : GraphState :=
  { graph_phase := "reasoned", graph_version := "version-b",
    resources := [{ dbResource with metadata := [("x", MVal.num 3)] },
                  { webResource with metadata := [("y", MVal.str "moved")] }],
    edges := [{ source := "vpc", target := "web", relation := "contains" },
              { source := "web", target := "db", relation := "connects_to" }],
    metadata := [("cost_estimate", MVal.str "$0/mo")] }

/-- A reasoned-phase graph used by the C10 witness. -/
def c10GraphReasoned : GraphState :=
  { graph_phase := "reasoned", graph_version := "version-r",
    resources := [webResource, dbResource],
    edges := [{ source := "web", target := "db", relation := "connects_to" }],
    reasoning := some "policy check passed" }

/-- The same resources and edges labeled as the implementation phase with
different reasoning, as fed back by the architecture loop. -/
def c10GraphImpl : GraphState :=
  { graph_phase := "implementation", graph_version := "version-i",
    resources := [webResource, dbResource],
    edges := [{ source := "web", target := "db", relation := "connects_to" }],
    reasoning := none }

/-! ## Cost runner (`InfraAgent.calculate_cost_gen`, agent.py 467-495) -/

/-- Python substring containment: `pyIn needle s` models `needle in s`. -/
def pyIn (needle s : String) : Bool :=
  decide (needle.toList <:+: s.toList)

/-- Events yielded by the tuple-yielding generators of `InfraAgent`
(`apply_policies_gen`, `calculate_cost_gen`): `("log", msg)`,
`("thought", msg)` and `("decision", entry)` tuples.  A decision entry is
the dictionary built at agent.py 336-344; its wall-clock `timestamp` field
is omitted. -/
inductive AgentEvent where
  | log (msg : String)
  | thought (msg : String)
  | decision (stage : String) (cycle : Nat) (trigger : String)
      (affected_nodes : List String) (action : String) (result : String)
deriving DecidableEq, Repr

/-- The per-resource monthly cost of `calculate_cost_gen`
(agent.py 475-480).  The source is an if/elif chain, so the first matching
substring wins: a type containing "instance" is priced 40 even when it also
contains "db". -/
def resource_unit_cost (t : String) : Nat :=
  if pyIn "instance" t then 40
  else if pyIn "lb" t then 20
  else if pyIn "nat" t then 30
  else if pyIn "db" t then 60
  else 0

/-- `InfraAgent.calculate_cost_gen` (agent.py 467-495): sums the rule table
over the resources, yields a log and a thought, and populates
`metadata.cost_estimate`, `metadata.cost_breakdown` and
`metadata.architecture_version_id` (the uuid4 drawn there is the
`version_id` argument). -/
def calculate_cost_gen (g : GraphState) (version_id : String) :
    List AgentEvent × GraphState :=
  let cost := (g.resources.map (fun r => resource_unit_cost r.type)).sum
  let details := g.resources.filterMap (fun r =>
    if resource_unit_cost r.type > 0 then
      some (r.id, "$" ++ toString (resource_unit_cost r.type) ++ "/mo")
    else none)
  let total_str := "$" ++ toString cost ++ "/mo"
  let md1 := dictSet g.metadata "cost_estimate" (MVal.str total_str)
  let md2 := dictSet md1 "cost_breakdown" (MVal.dict details)
  let md3 := dictSet md2 "architecture_version_id" (MVal.str version_id)
  ([AgentEvent.log "Calculating Monthly Cost Estimate...",
    AgentEvent.thought ("Estimated Cost: " ++ total_str)],
   { g with metadata := md3 })

/-- An implementation graph holding the concrete compute-instance type and
the concrete RDS database type of this repository (`aws_instance`,
`aws_db_instance`; both named in agent.py 581 and 1010). -/
def c5RdsGraph : GraphState :=
  { graph_phase := "implementation",
    resources := [{ id := "web", type := "aws_instance" },
                  { id := "db", type := "aws_db_instance" }] }

/-- An implementation graph with a compute instance and a database type
that does not contain the substring "instance". -/
def c5DynamoGraph : GraphState :=
  { graph_phase := "implementation",
    resources := [{ id := "web", type := "aws_instance" },
                  { id := "db", type := "dynamodb_table" }] }

/-! ## Policy runner (`InfraAgent.apply_policies_gen`, agent.py 250-377) -/

/-- One entry of the `decisions` list of a policy-model response.  The
fields carry the defaults the code supplies through `d.get(...)` at
agent.py 340-343. -/
structure PolicyDecision where
  trigger : String := "policy_check"
  affected_nodes : List String := []
  action : String := "mutation"
  result : String := "applied"
deriving DecidableEq, Repr

/-- The parsed policy-model response (`new_data` after key remapping,
agent.py 279-298).  `violations_remaining` models
`new_data.get("violations_remaining", 1)`; `graph_phase` is the phase key
of the returned dictionary if the model sent one (`GraphState` applies its
"implementation" default otherwise). -/
structure PolicyResp where
  graph_phase : Option String := none
  resources : List Resource := []
  edges : List Edge := []
  decisions : List PolicyDecision := []
  violations_remaining : Int := 1
  reasoning : Option String := none
deriving DecidableEq, Repr

/-- The `current_data` dictionary of the policy loop: either the dump of
the input intent graph with `graph_phase` set to "reasoned"
(agent.py 254-255), or a model response that replaced it wholesale
(agent.py 363). -/
inductive PolicyCur where
  | fromIntent (g : GraphState)
  | fromResp (r : PolicyResp)
deriving DecidableEq, Repr

/-- The resources recorded in `current_data`. -/
def PolicyCur.resources : PolicyCur → List Resource
  | .fromIntent g => g.resources
  | .fromResp r => r.resources

/-- `GraphState(**current_data)` (agent.py 375): re-validate the dictionary,
applying the `GraphState` field defaults for keys the dictionary lacks
(a fresh `graph_version` uuid4 is abstracted to the default string). -/
def PolicyCur.toGraphState : PolicyCur → GraphState
  | .fromIntent g => { g with graph_phase := "reasoned" }
  | .fromResp r =>
    { graph_phase := r.graph_phase.getD "implementation",
      resources := r.resources, edges := r.edges,
      reasoning := r.reasoning }

/-- The V1 monotonicity check `intent_ids - reasoned_ids`
(agent.py 304-307): ids of the input intent graph absent from the
response, as a list (the code renders it as a set and tests emptiness). -/
def policyMissing (intent : GraphState) (resp : PolicyResp) : List String :=
  (intent.resources.map Resource.id).filter
    (fun i => !(resp.resources.map Resource.id).contains i)

/-- `intent_type_map = {r.id: r.type for r in intent_graph.resources}`
(agent.py 316); a Python dict comprehension keeps the last binding per
key. -/
def intentTypeOf (intent : GraphState) (i : String) : Option String :=
  (intent.resources.reverse.find? (fun r => r.id == i)).map (·.type)

/-- The V2 semantic-stability check (agent.py 316-327): response resources
whose id exists in the intent graph with a different type. -/
def policyTypeViolations (intent : GraphState) (resp : PolicyResp) :
    List Resource :=
  resp.resources.filter (fun r =>
    match intentTypeOf intent r.id with
    | some t => decide (r.type ≠ t)
    | none => false)

/-- The per-cycle header log (agent.py 261). -/
def policyCycleHeader (cycle : Nat) : AgentEvent :=
  AgentEvent.log ("Cycle " ++ toString (cycle + 1)
    ++ "/3: Analyzing architecture against policies...")

/-- The high-level reasoning thought (agent.py 291-292); Python truthiness
makes an empty reasoning string emit nothing. -/
def policyThoughtEvents (resp : PolicyResp) : List AgentEvent :=
  match resp.reasoning with
  | some r => if r = "" then [] else [AgentEvent.thought ("Analysis: " ++ r)]
  | none => []

/-- The V1 rejection log (agent.py 309-311): the yielded record is
`"⚠️ " + msg + " - Retrying..."` around the CRITICAL message; the Python
set rendering of the missing ids is abstracted to the list rendering. -/
def policyRejectEvents (missing : List String) : List AgentEvent :=
  [AgentEvent.log ("⚠️ CRITICAL: Policy Phase removed nodes: "
    ++ toString missing ++ " - Retrying...")]

/-- The V2 rejection logs, one per violating resource (agent.py 322-325). -/
def policyTypeEvents (intent : GraphState) (resp : PolicyResp) :
    List AgentEvent :=
  (policyTypeViolations intent resp).map (fun r =>
    AgentEvent.log ("⚠️ CRITICAL: Semantic role changed for " ++ r.id
      ++ ": " ++ (intentTypeOf intent r.id).getD "" ++ " -> " ++ r.type
      ++ " - Retrying..."))

/-- Decision events of an accepted cycle (agent.py 333-361): one per
returned decision, or the legacy reasoning entry when the decision list is
empty and a non-empty reasoning string is present. -/
def policyDecisionEvents (cycle : Nat) (resp : PolicyResp) :
    List AgentEvent :=
  if resp.decisions ≠ [] then
    resp.decisions.map (fun d =>
      AgentEvent.decision "reasoned" cycle d.trigger d.affected_nodes
        d.action d.result)
  else
    match resp.reasoning with
    | some r =>
      if r = "" then []
      else [AgentEvent.decision "reasoned" cycle "legacy_reasoning" []
        "log" (r.take 50 ++ "...")]
    | none => []

/-- The applied-decisions progress log (agent.py 366). -/
def policyAppliedEvent (cycle : Nat) (resp : PolicyResp) : AgentEvent :=
  AgentEvent.log ("Cycle " ++ toString (cycle + 1) ++ ": Applied "
    ++ toString resp.decisions.length ++ " decisions.")

/-- The `while cycle < max_cycles` loop of `apply_policies_gen`
(agent.py 257-373), with `fuel = max_cycles - cycle` making termination
structural.  `model cycle` is the parsed response of the policy model at
cycle value `cycle` (the transient-error retry wrapper around the call is
the subject of C7 and is not re-modelled here).  A V1 or V2 rejection
leaves `current_data` untouched and re-enters the loop; an accepted
response replaces it and the loop ends early when the response reports
zero remaining violations. -/
def apply_policies_gen (intent : GraphState) (model : Nat → PolicyResp) :
    Nat → Nat → PolicyCur → List AgentEvent × PolicyCur
  | _, 0, cur => ([], cur)
  | cycle, fuel + 1, cur =>
    let resp := model cycle
    let evs := [policyCycleHeader cycle] ++ policyThoughtEvents resp
    if policyMissing intent resp ≠ [] then
      let rest := apply_policies_gen intent model (cycle + 1) fuel cur
      (evs ++ policyRejectEvents (policyMissing intent resp) ++ rest.1,
        rest.2)
    else if policyTypeViolations intent resp ≠ [] then
      let rest := apply_policies_gen intent model (cycle + 1) fuel cur
      (evs ++ policyTypeEvents intent resp ++ rest.1, rest.2)
    else
      let evs2 := evs ++ policyDecisionEvents cycle resp
        ++ [policyAppliedEvent cycle resp]
      if resp.violations_remaining == 0 then
        (evs2 ++ [AgentEvent.log "✅ Policy check passed. No violations."],
          PolicyCur.fromResp resp)
      else
        let rest := apply_policies_gen intent model (cycle + 1) fuel
          (PolicyCur.fromResp resp)
        (evs2 ++ rest.1, rest.2)

/-- The full policy run (agent.py 254-377): three cycles starting from the
intent dump, finishing with `GraphState(**current_data)`. -/
def apply_policies (intent : GraphState) (model : Nat → PolicyResp) :
    List AgentEvent × GraphState :=
  let r := apply_policies_gen intent model 0 3 (PolicyCur.fromIntent intent)
  (r.1, r.2.toGraphState)

/-- Intent graph for the C1 witness: a web service connected to a
database. -/
def c1Intent : GraphState :=
  { graph_phase := "intent", graph_version := "version-c1",
    resources := [webResource, dbResource],
    edges := [{ source := "web", target := "db", relation := "connects_to" }] }

/-- A policy model that drops the `db` node in every cycle (the
monotonicity attack of spec scenario S3). -/
def c1DropDbModel : Nat → PolicyResp := fun _ =>
  { resources := [webResource], violations_remaining := 0 }

/-! ## Expansion runner validation (`expand_architecture_gen`,
agent.py 437-456) -/

/-- `abstract_types` (agent.py 450): the only semantic types the expansion
runner checks for. -/
def abstract_types : List String :=
  ["compute_service", "relational_database", "object_storage",
   "load_balancer"]

/-- Modelled from the spec's words: the closed semantic set enumerated in
section 4.4.1, against which claim C8 says invariant I5 is checked. -/
def specSemanticTypeSet : List String :=
  ["compute_service", "relational_database", "object_storage",
   "load_balancer", "message_queue", "pubsub_topic", "cache_service",
   "network_container", "network_zone"]

/-- Events yielded by the validation tail of `expand_architecture_gen`.
`warnMissing ids` stands for the log record of agent.py 447 (its text
renders the dropped-node set), `warnAbstract ids` for the log record of
agent.py 453 (its text renders the remaining abstract-node list). -/
inductive ExpEvent where
  | log (msg : String)
  | thought (msg : String)
  | warnMissing (ids : List String)
  | warnAbstract (ids : List String)
deriving DecidableEq, Repr

/-- `missing = reasoned_ids - impl_ids` (agent.py 443-445), as a list. -/
def expansionMissing (reasoned expanded : GraphState) : List String :=
  (reasoned.resources.map Resource.id).filter
    (fun i => !(expanded.resources.map Resource.id).contains i)

/-- `remaining` (agent.py 451): ids of expanded resources whose type is in
`abstract_types`. -/
def expansionAbstractRemaining (g : GraphState) : List String :=
  (g.resources.filter (fun r => abstract_types.contains r.type)).map
    Resource.id

/-- The event sequence of agent.py 437-453, after a successful model call
and parse: the materialization thought, then the monotonicity warning if
ids were dropped, then the abstract-type warning if any checked abstract
type remains. -/
def expansionValidationEvents (reasoned expanded : GraphState) :
    List ExpEvent :=
  [ExpEvent.thought ("Expansion: Materialized "
      ++ toString ((expanded.resources.length : Int)
        - (reasoned.resources.length : Int))
      ++ " infrastructure resources (VPC, IGW, Subnets).")]
  ++ (if expansionMissing reasoned expanded ≠ [] then
        [ExpEvent.warnMissing (expansionMissing reasoned expanded)]
      else [])
  ++ (if expansionAbstractRemaining expanded ≠ [] then
        [ExpEvent.warnAbstract (expansionAbstractRemaining expanded)]
      else [])

/-- An implementation graph whose only resource keeps the semantic type
`message_queue`. -/
def c8QueueGraph : GraphState :=
  { graph_phase := "implementation",
    resources := [{ id := "mq1", type := "message_queue" }] }

/-- The reasoned input matching `c8QueueGraph` (same single resource). -/
def c8QueueReasoned : GraphState :=
  { graph_phase := "reasoned",
    resources := [{ id := "mq1", type := "message_queue" }] }

/-- A compute resource left abstract by the expansion. -/
def c8WebAbstract : Resource := { id := "web", type := "compute_service" }

/-- An implementation graph with one remaining checked abstract type. -/
def c8AbstractGraph : GraphState :=
  { graph_phase := "implementation",
    resources := [c8WebAbstract, { id := "vpc", type := "aws_vpc" }] }

/-! ## Expansion model call with retry (`expand_architecture_gen`,
agent.py 405-426) -/

/-- Transient-error classification (agent.py 420-421):
`"503" in error_str or "429" in error_str`. -/
def isTransientErr (msg : String) : Bool :=
  pyIn "503" msg || pyIn "429" msg

/-- The graph dictionary parsed from a successful expansion model call
(after key remapping). -/
structure ExpansionData where
  resources : List Resource := []
  edges : List Edge := []
deriving DecidableEq, Repr

/-- One outcome of `client.models.generate_content` followed by
`json.loads` inside `expand_architecture_gen`: a parsed payload, or a
raised exception carrying its rendered message `str(e)`. -/
inductive ModelCall where
  | ok (data : ExpansionData)
  | raisedErr (msg : String)
deriving DecidableEq, Repr

/-- Result of running a fragment of Python code: a value, an uncaught
`NameError` for an unbound name, or another uncaught exception. -/
inductive PyResult (α : Type) where
  | ok (a : α)
  | nameError (name : String)
  | raised (msg : String)
deriving DecidableEq, Repr

/-- Local names bound in `expand_architecture_gen` before and inside its
retry loop (agent.py 396-426): the parameters and the assignments
preceding the `except` handler.  No `send` is bound here. -/
def expandArchLocalNames : List String :=
  ["self", "reasoned_graph", "execution_mode", "graph_json", "prompt",
   "data", "api_attempts", "max_api_attempts", "response", "e",
   "error_str"]

/-- Module-level names of backend/agent.py visible from inside its methods
(the imports at agent.py 1-28 and the top-level class).  The `send`
helpers are defined locally inside other methods
(`generate_intent_stream`, `stream_expanded_architecture`, ...), never at
module scope. -/
def agentModuleNames : List String :=
  ["nx", "os", "json", "genai", "types", "load_dotenv", "List", "Dict",
   "Optional", "Generator", "Any", "uuid", "hashlib", "time", "threading",
   "queue", "GraphState", "Resource", "Edge", "PlanDiff", "IntentAnalysis",
   "BlastAnalysis", "CodeReview", "ConfirmationRequired",
   "ConfirmationReason", "SessionState", "get_think_prompt",
   "get_plan_prompt", "get_code_gen_prompt", "get_vision_prompt",
   "get_intent_text_prompt", "get_policy_prompt", "get_expansion_prompt",
   "get_modification_prompt", "PIL", "io", "localstack", "aws_full",
   "PipelineManager", "PipelineResult", "InfraAgent"]

/-- Python name resolution inside the retry loop of
`expand_architecture_gen`: a name evaluates only if bound locally or at
module scope (no builtin is called `send` either). -/
def expandArchResolves (name : String) : Bool :=
  expandArchLocalNames.contains name || agentModuleNames.contains name

/-- The `while api_attempts < max_api_attempts` retry loop of
`expand_architecture_gen` (agent.py 410-426).  `calls i` is the outcome of
the model call at iteration `i`.  On a transient error the handler
increments the counter and then evaluates `send("log", ...)` to build the
retry log; evaluating the name `send` raises `NameError` when it is
unbound.  On a non-transient error the exception is re-raised.  If the
loop exhausts its five attempts, `data` remains `None`. -/
def expandModelRetry (calls : Nat → ModelCall) :
    Nat → Nat → PyResult (Option ExpansionData)
  | _, 0 => .ok none
  | i, fuel + 1 =>
    match calls i with
    | .ok d => .ok (some d)
    | .raisedErr msg =>
      if isTransientErr msg then
        if expandArchResolves "send" then expandModelRetry calls (i + 1) fuel
        else .nameError "send"
      else
        .raised msg

/-- The expansion model call with its retry loop, `max_api_attempts = 5`
(agent.py 409). -/
def expand_architecture_model_call (calls : Nat → ModelCall) :
    PyResult (Option ExpansionData) :=
  expandModelRetry calls 0 5

/-! ## Session persistence (`save_state_to_disk`, `load_full_state`,
`hard_reset`, agent.py 62-173) -/

/-- Session metadata record (agent.py 87-92); the wall-clock timestamp is
omitted. -/
structure SessionMeta where
  phase : String
  execution_mode : String
  simulate_pipeline : Bool
deriving DecidableEq, Repr

/-- The in-memory state of `InfraAgent` that persistence touches: the
lifecycle graph slots, the pending graph, the decision log (entries
abstracted to their decision payloads), the conversation history and the
session fields.  The defaults are the constructor's initial values. -/
structure AgentMem where
  intent_graph : Option GraphState := none
  reasoned_graph : Option GraphState := none
  implementation_graph : Option GraphState := none
  pending_graph : Option GraphState := none
  decision_log : List PolicyDecision := []
  history : List String := []
  phase : String := "idle"
  execution_mode : String := "deploy"
  simulate_pipeline : Bool := true
deriving DecidableEq, Repr

/-- The on-disk graphs directory (agent.py 56-93): one optional content
per file name.  `graph_state_json` is the backward-compatibility copy
written beside the directory (agent.py 80). -/
structure GraphDisk where
  intent_graph_json : Option GraphState := none
  reasoned_graph_json : Option GraphState := none
  implementation_graph_json : Option GraphState := none
  pending_graph_json : Option GraphState := none
  graph_state_json : Option GraphState := none
  decision_log_json : Option (List PolicyDecision) := none
  session_meta_json : Option SessionMeta := none
deriving DecidableEq, Repr

/-- `InfraAgent.save_state_to_disk` (agent.py 62-96).  Each graph file is
written only when the corresponding in-memory slot passes Python
truthiness (`if self.intent_graph: ...`); the decision log and the session
metadata are always written; no file is ever deleted. -/
def save_state_to_disk (m : AgentMem) (d : GraphDisk) : GraphDisk :=
  { intent_graph_json :=
      if m.intent_graph.isSome then m.intent_graph else d.intent_graph_json,
    reasoned_graph_json :=
      if m.reasoned_graph.isSome then m.reasoned_graph
      else d.reasoned_graph_json,
    implementation_graph_json :=
      if m.implementation_graph.isSome then m.implementation_graph
      else d.implementation_graph_json,
    graph_state_json :=
      if m.implementation_graph.isSome then m.implementation_graph
      else d.graph_state_json,
    pending_graph_json :=
      if m.pending_graph.isSome then m.pending_graph
      else d.pending_graph_json,
    decision_log_json := some m.decision_log,
    session_meta_json := some
      { phase := m.phase, execution_mode := m.execution_mode,
        simulate_pipeline := m.simulate_pipeline } }

/-- The freshly-constructed agent memory: every slot empty, session idle
(agent.py 156-169). -/
def freshAgentMem : AgentMem := {}

/-- `InfraAgent.hard_reset` (agent.py 154-173): clear the graphs, the
lifecycle slots, the logs, the history and the session, then call
`save_state_to_disk` ("Persist empty state to disk (wipe files)" per the
source comment). -/
def hard_reset (_m : AgentMem) (d : GraphDisk) : AgentMem × GraphDisk :=
  (freshAgentMem, save_state_to_disk freshAgentMem d)

/-- `InfraAgent.load_full_state` (agent.py 112-152), run at startup: load
each graph file that exists; the decision log is never loaded; session
fields come from the metadata file with the documented `.get` defaults. -/
def load_full_state (d : GraphDisk) : AgentMem :=
  { intent_graph := d.intent_graph_json,
    reasoned_graph := d.reasoned_graph_json,
    implementation_graph := d.implementation_graph_json,
    pending_graph := d.pending_graph_json,
    decision_log := [],
    history := [],
    phase := (d.session_meta_json.map (·.phase)).getD "idle",
    execution_mode :=
      (d.session_meta_json.map (·.execution_mode)).getD "deploy",
    simulate_pipeline :=
      (d.session_meta_json.map (·.simulate_pipeline)).getD true }

/-- A disk holding the files of a prior session. -/
def c4PriorDisk : GraphDisk :=
  { intent_graph_json := some c1Intent,
    reasoned_graph_json := some c2GraphA,
    implementation_graph_json := some c5RdsGraph,
    decision_log_json := some [{}],
    session_meta_json := some
      { phase := "reasoned_review", execution_mode := "deploy",
        simulate_pipeline := true } }

/-! ## Blast radius (`simulate_blast_radius`, agent.py 1333-1365, over the
NetworkX graph rebuilt by `load_nx_graph`, agent.py 175-181) -/

/-- The node set of the NetworkX digraph built by `load_nx_graph`:
`add_node` for every resource, and `add_edge` implicitly adds missing
endpoint nodes. -/
def nxNodes (g : GraphState) : List String :=
  g.resources.map Resource.id
    ++ g.edges.flatMap (fun e => [e.source, e.target])

/-- Successor nodes in the NetworkX digraph: the targets of the edges with
the given source, regardless of relation. -/
def nxSuccs (g : GraphState) (n : String) : List String :=
  (g.edges.filter (fun e => e.source == n)).map Edge.target

/-- One saturation step of forward reachability: add every successor of
the current set. -/
def reachStep (g : GraphState) (s : Finset String) : Finset String :=
  s ∪ s.biUnion (fun n => (nxSuccs g n).toFinset)

/-- All nodes reachable from `t` (including `t`): saturate for
`card (insert t nodes)` steps, enough to reach the fixed point. -/
def reachSet (g : GraphState) (t : String) : Finset String :=
  (reachStep g)^[(insert t (nxNodes g).toFinset).card] {t}

/-- `InfraAgent.simulate_blast_radius` (agent.py 1333-1365): `[]` when the
target is not a node of the graph, otherwise
`list(nx.descendants(self.graph, target))` — the nodes reachable from the
target over every edge regardless of relation, the target itself removed.
`list(...)` renders the set in arbitrary order, so the returned value is
modelled as the finite set itself and the theorems speak about
membership. -/
def simulate_blast_radius (g : GraphState) (target : String) :
    Finset String :=
  if (nxNodes g).contains target then
    (reachSet g target).erase target
  else ∅

/-- One directed step over the edges of `g`, any relation: the relation
the code actually traverses. -/
def edgeStep (g : GraphState) (a b : String) : Prop :=
  ∃ e ∈ g.edges, e.source = a ∧ e.target = b

/-- Modelled from the spec's words (claim C9): one directed step in the
subgraph containing only edges with relation "contains". -/
def containsStep (g : GraphState) (a b : String) : Prop :=
  ∃ e ∈ g.edges, e.relation = "contains" ∧ e.source = a ∧ e.target = b

/-- Modelled from the spec's words (claim C9): `n` is a descendant of `t`
in the contains-relation subgraph — reachable from `t` through one or
more contains-edges, the target itself excluded as `nx.descendants`
excludes its source. -/
def specContainsAffected (g : GraphState) (t n : String) : Prop :=
  n ≠ t ∧ Relation.TransGen (containsStep g) t n

/-- The single non-contains edge of the C9 counterexample graph. -/
def c9Edge : Edge :=
  { source := "a", target := "b", relation := "connects_to" }

/-- A graph with a single non-contains edge, for the C9 counterexample. -/
def c9Graph : GraphState :=
  { graph_phase := "implementation",
    resources := [{ id := "a", type := "aws_instance" },
                  { id := "b", type := "aws_db_instance" }],
    edges := [c9Edge] }

/-! ## Client event streams (`generate_intent_stream`, agent.py 646-756;
`stream_expanded_architecture`, agent.py 758-863) -/

/-- The record kinds of the newline-delimited client protocol: every
record a stream method yields is `send(kind, content)` for one of these
kinds. -/
inductive RecKind where
  | log
  | thought
  | decision
  | stage
  | graph_snapshot
  | control
  | result
  | error
deriving DecidableEq, Repr

/-- Outcome of the intent model call and parse step as the stream method
observes it (agent.py 677-717). -/
inductive IntentOutcome where
  | parsed (g : GraphState)
  | noJson
  | fatal (msg : String)
deriving DecidableEq, Repr

/-- `generate_intent_stream` (agent.py 646-756) at the record-kind level:
the opening log and stage records, one retry log per transient streaming
failure (at most five), then on a successful parse the intent log, the
graph snapshot, the stage-success record and the closing control record —
after which the function falls off its `try` block and the generator
ends.  When the five attempts are exhausted the buffer is empty, no brace
is found and the parse-failure error record ends the stream; `noJson` and
a fatal exception (caught by the outer handler) likewise end it with one
error record. -/
def generate_intent_stream (failures : Nat) (outcome : IntentOutcome) :
    List RecKind :=
  [RecKind.log, RecKind.stage]
    ++ List.replicate (min failures 5) RecKind.log
    ++ (if failures ≥ 5 then [RecKind.error]
        else match outcome with
          | .parsed _ => [RecKind.log, RecKind.graph_snapshot,
              RecKind.stage, RecKind.control]
          | .noJson => [RecKind.error]
          | .fatal _ => [RecKind.error])

/-- Sub-events the architecture loop can receive from its inner
generators: the tuple-yielding generators only ever yield log, thought and
decision tuples. -/
inductive SubKind where
  | log
  | thought
  | decision
deriving DecidableEq, Repr

/-- A forwarded sub-event keeps its kind. -/
def SubKind.toRec : SubKind → RecKind
  | .log => RecKind.log
  | .thought => RecKind.thought
  | .decision => RecKind.decision

/-- Forwarding from `apply_policies_gen` (agent.py 787-794): log, thought
and decision tuples all pass through. -/
def policyForward (evs : List SubKind) : List RecKind :=
  evs.map SubKind.toRec

/-- Forwarding from `expand_architecture_gen` (agent.py 802-808): only log
and thought tuples pass through; decision tuples are dropped. -/
def expandForward (evs : List SubKind) : List RecKind :=
  (evs.filter (fun e => match e with
    | .decision => false
    | _ => true)).map SubKind.toRec

/-- Forwarding from `verify_expansion_gen` (agent.py 816-819): every tuple
is re-emitted as a log record. -/
def verifyForward (evs : List SubKind) : List RecKind :=
  evs.map (fun _ => RecKind.log)

/-- Forwarding from `calculate_cost_gen` (agent.py 847-852): only thought
tuples pass through. -/
def costForward (evs : List SubKind) : List RecKind :=
  (evs.filter (fun e => match e with
    | .thought => true
    | _ => false)).map SubKind.toRec

/-- One iteration of the architecture loop as `stream_expanded_architecture`
observes it: the sub-events forwarded from the policy, expansion and
verify generators and the canonical hash of the verified step (an
abstract digest value). -/
structure CycleOutcome where
  policyEvents : List SubKind := []
  expandEvents : List SubKind := []
  verifyEvents : List SubKind := []
  hash : Nat := 0

/-- The `while global_cycle < MAX_GLOBAL_CYCLES` loop of
`stream_expanded_architecture` (agent.py 781-837): each iteration emits
the re-evaluation log (from the second iteration on) and the forwarded
sub-events; when the hash matches the previous one the convergence
decision record is emitted and the loop breaks.  Returns the records and
whether convergence was reached. -/
def archLoopAux (cycles : Nat → CycleOutcome) :
    Nat → Nat → Option Nat → List RecKind × Bool
  | _, 0, _ => ([], false)
  | gc, fuel + 1, prev =>
    let c := cycles gc
    let evs := (if gc > 0 then [RecKind.log] else [])
      ++ policyForward c.policyEvents ++ expandForward c.expandEvents
      ++ verifyForward c.verifyEvents
    if prev = some c.hash then (evs ++ [RecKind.decision], true)
    else
      let rest := archLoopAux cycles (gc + 1) fuel (some c.hash)
      (evs ++ rest.1, rest.2)

/-- `stream_expanded_architecture` (agent.py 758-863) at the record-kind
level.  `startPresent` is whether a start graph exists (agent.py 766-769,
the only explicit error return: the inner generators always yield their
terminal graph when they return normally, so the defensive
"Policy engine failed." / "Expansion failed." branches cannot fire);
`cycles` gives the loop iterations and `costEvents` the events of
`calculate_cost_gen` on the final graph.  An exception raised by an inner
generator (C7 exhibits one) propagates and aborts the generator without
any record; such aborted runs are outside this trace function. -/
def stream_expanded_architecture (startPresent : Bool)
    (cycles : Nat → CycleOutcome) (costEvents : List SubKind) :
    List RecKind :=
  if !startPresent then [RecKind.error]
  else
    let run := archLoopAux cycles 0 3 none
    [RecKind.stage] ++ run.1
      ++ (if run.2 then [] else [RecKind.log])
      ++ costForward costEvents
      ++ [RecKind.log, RecKind.graph_snapshot, RecKind.stage,
          RecKind.control]

/-! ## Verification pipeline (`PipelineManager.run_pipeline`,
pipeline.py 20-153) -/

/-- Outcome of one `_run_stage` subprocess invocation: the failure flag
(`status == "failed"`, which for validate already includes the static
policy check of pipeline.py 209-214) and the `error` text. -/
structure StageOutcome where
  failed : Bool := false
  error : String := ""
deriving DecidableEq, Repr

/-- Outcome of the verify stage: the subprocess result plus the resource
map parsed from the last brace-delimited JSON line of its logs
(pipeline.py 104-115), empty when no such line parses. -/
structure VerifyOutcome where
  failed : Bool := false
  error : String := ""
  statuses : List (String × String) := []
deriving DecidableEq, Repr

/-- Environment of a pipeline run: the outcome of each stage at each
attempt index, and `_fix_code` (pipeline.py 350-444) as a function of the
current HCL and the failed stage's error text. -/
structure PipeEnv where
  validate : Nat → StageOutcome
  plan : Nat → StageOutcome
  applyStage : Nat → StageOutcome
  verify : Nat → VerifyOutcome
  fix : String → String → String

/-- Observable events of a pipeline run: a stage completion (with attempt
index and failure flag, as delivered to `stage_callback`), a
self-correction repair (the fixing callback plus the `_fix_code` call,
with the context string the code passes), and `_write_files` rewriting
`main.tf`. -/
inductive PipeEv where
  | ranStage (name : String) (attempt : Nat) (failed : Bool)
  | fixing (context : String) (attempt : Nat)
  | wroteFiles (hcl : String)
deriving DecidableEq, Repr

/-- `PipelineResult` from `backend/schemas.py`, with the stage history
carried by the event list instead. -/
structure PipeResult where
  success : Bool
  hcl : String
  final_message : String
  resource_statuses : List (String × String) := []
deriving DecidableEq, Repr

/-- The `for attempt in range(max_retries)` loop of `run_pipeline`
(pipeline.py 33-153), with the remaining iterations as fuel and the
current HCL threaded.  A validate failure repairs, rewrites and re-enters
the loop; draft mode returns after validate (simulating the remaining
stages when `simulate_apply` is set); a plan failure is not examined —
the code runs apply next regardless; an apply failure repairs, rewrites
and re-enters; the verify outcome is reclassified as failed when the
script succeeded but its status map marks some resource not "success"
(pipeline.py 118-127), and either way the function returns without
retrying verify. -/
def run_pipeline_loop (env : PipeEnv) (execution_mode : String)
    (simulate_apply : Bool) :
    Nat → Nat → String → List PipeEv × PipeResult
  | _, 0, hcl =>
    ([], { success := false, hcl := hcl,
           final_message := "Pipeline failed after maximum retries." })
  | attempt, fuel + 1, hcl =>
    let val := env.validate attempt
    if val.failed then
      let hcl2 := env.fix hcl val.error
      let rest := run_pipeline_loop env execution_mode simulate_apply
        (attempt + 1) fuel hcl2
      ([PipeEv.ranStage "validate" attempt true,
        PipeEv.fixing "terraform validate" attempt,
        PipeEv.wroteFiles hcl2] ++ rest.1, rest.2)
    else if execution_mode = "draft" then
      if !simulate_apply then
        ([PipeEv.ranStage "validate" attempt false],
         { success := true, hcl := hcl,
           final_message := "Draft Validation Complete. (Stopped before Plan)" })
      else
        ([PipeEv.ranStage "validate" attempt false,
          PipeEv.ranStage "plan" attempt false,
          PipeEv.ranStage "apply" attempt false,
          PipeEv.ranStage "verify" attempt false],
         { success := true, hcl := hcl,
           final_message := "Draft Deployment Simulated Successfully!",
           resource_statuses := [("vpc-main", "success"),
             ("simulated-node", "success")] })
    else
      let plan := env.plan attempt
      let app := env.applyStage attempt
      if app.failed then
        let hcl2 := env.fix hcl app.error
        let rest := run_pipeline_loop env execution_mode simulate_apply
          (attempt + 1) fuel hcl2
        ([PipeEv.ranStage "validate" attempt false,
          PipeEv.ranStage "plan" attempt plan.failed,
          PipeEv.ranStage "apply" attempt true,
          PipeEv.fixing "terraform apply" attempt,
          PipeEv.wroteFiles hcl2] ++ rest.1, rest.2)
      else
        let ver := env.verify attempt
        let failedResources := ver.statuses.filter
          (fun kv => kv.2 ≠ "success")
        let reclass := !ver.failed && !ver.statuses.isEmpty
          && !failedResources.isEmpty
        let verFailed := ver.failed || reclass
        ([PipeEv.ranStage "validate" attempt false,
          PipeEv.ranStage "plan" attempt plan.failed,
          PipeEv.ranStage "apply" attempt false,
          PipeEv.ranStage "verify" attempt ver.failed]
          ++ (if reclass then [PipeEv.ranStage "verify" attempt true]
              else []),
         if verFailed then
           { success := false, hcl := hcl,
             final_message := "Deployment succeeded, but Verification script failed.",
             resource_statuses := ver.statuses }
         else
           { success := true, hcl := hcl,
             final_message := "Infrastructure Deployed and Verified Successfully!",
             resource_statuses := ver.statuses })

/-- `PipelineManager.run_pipeline` (pipeline.py 20-153): the initial
`_write_files` (Setup), then the retry loop with `max_retries = 3`. -/
def run_pipeline (env : PipeEnv) (hcl : String) (execution_mode : String)
    (simulate_apply : Bool) : List PipeEv × PipeResult :=
  let r := run_pipeline_loop env execution_mode simulate_apply 0 3 hcl
  (PipeEv.wroteFiles hcl :: r.1, r.2)

/-- How many completions of the named stage a trace holds. -/
def countStageRuns (name : String) (evs : List PipeEv) : Nat :=
  (evs.filter (fun e => match e with
    | PipeEv.ranStage n _ _ => n == name
    | _ => false)).length

/-- An environment whose Plan stage fails at every attempt while every
other stage succeeds. -/
def c6PlanFailEnv : PipeEnv :=
  { validate := fun _ => {},
    plan := fun _ => { failed := true, error := "plan exploded" },
    applyStage := fun _ => {},
    verify := fun _ => { statuses := [("web", "success")] },
    fix := fun hcl _ => hcl ++ " repaired" }

/-- An environment whose Validate stage fails on the first attempt only
and whose later stages succeed, used by the C6 witness. -/
def c6ValFailEnv : PipeEnv :=
  { validate := fun a => if a = 0 then
      { failed := true, error := "syntax error" } else {},
    plan := fun _ => {},
    applyStage := fun _ => {},
    verify := fun _ => { statuses := [("web", "success")] },
    fix := fun hcl _ => hcl ++ " repaired" }

/-! ## Theorems -/

/-! Helper lemmas: a sorted list with pairwise-distinct ids is determined
by its multiset of elements. -/

theorem sorted_resLt_of_sorted_nodup {l : List ResourceCore}
    (hs : List.Sorted resLe l) (hn : (l.map ResourceCore.id).Nodup) :
    List.Sorted resLt l := by
  have hne : List.Pairwise (fun a b : ResourceCore => a.id ≠ b.id) l :=
    List.pairwise_map.mp hn
  exact (hs.and hne).imp (fun h => lt_of_le_of_ne h.1 h.2)

theorem insertionSort_eq_of_perm_of_nodup {l₁ l₂ : List ResourceCore}
    (hp : l₁.Perm l₂) (hn : (l₁.map ResourceCore.id).Nodup) :
    l₁.insertionSort resLe = l₂.insertionSort resLe := by
  have hp₁ := List.perm_insertionSort resLe l₁
  have hp₂ := List.perm_insertionSort resLe l₂
  have hperm : (l₁.insertionSort resLe).Perm (l₂.insertionSort resLe) :=
    (hp₁.trans hp).trans hp₂.symm
  have hn₁ : ((l₁.insertionSort resLe).map ResourceCore.id).Nodup :=
    ((hp₁.map ResourceCore.id).nodup_iff).mpr hn
  have hn₂ : ((l₂.insertionSort resLe).map ResourceCore.id).Nodup :=
    ((hperm.map ResourceCore.id).nodup_iff).mp hn₁
  exact List.eq_of_perm_of_sorted hperm
    (sorted_resLt_of_sorted_nodup (List.sorted_insertionSort resLe _) hn₁)
    (sorted_resLt_of_sorted_nodup (List.sorted_insertionSort resLe _) hn₂)

theorem edges_insertionSort_eq_of_perm {l₁ l₂ : List Edge} (hp : l₁.Perm l₂) :
    l₁.insertionSort edgeLe = l₂.insertionSort edgeLe := by
  have hp₁ := List.perm_insertionSort edgeLe l₁
  have hp₂ := List.perm_insertionSort edgeLe l₂
  exact List.eq_of_perm_of_sorted ((hp₁.trans hp).trans hp₂.symm)
    (List.sorted_insertionSort edgeLe _) (List.sorted_insertionSort edgeLe _)

/-- C2: the canonical hash of a `GraphState` is unchanged by reordering the
resources sequence, reordering the edges sequence, changing only metadata
(graph-level metadata or any resource's metadata) and changing the
`graph_version` field.  A graph state reached from `g2` by any combination
of those four operations has resource dumps that are a permutation of the
dumps of `g2` (metadata is excluded from the dump) and edges that are a
permutation of the edges of `g2`; resource ids are unique within a graph
(invariant I1 of the data model). -/
theorem C2_canonical_hash_invariance (g1 g2 : GraphState)
    (hres : List.Perm (g1.resources.map Resource.core)
      (g2.resources.map Resource.core))
    (hedg : List.Perm g1.edges g2.edges)
    (hids : (g2.resources.map Resource.id).Nodup) :
    stable_graph_hash g1 = stable_graph_hash g2 := by
  have hcomp : ResourceCore.id ∘ Resource.core = Resource.id :=
    funext fun r => rfl
  have hn2 : ((g2.resources.map Resource.core).map ResourceCore.id).Nodup := by
    rw [List.map_map, hcomp]; exact hids
  have hn1 : ((g1.resources.map Resource.core).map ResourceCore.id).Nodup :=
    ((hres.map ResourceCore.id).nodup_iff).mpr hn2
  simp only [stable_graph_hash, CanonicalGraph.mk.injEq]
  exact ⟨insertionSort_eq_of_perm_of_nodup hres hn1,
    edges_insertionSort_eq_of_perm hedg⟩

/-- Witness for C2 at a concrete pair of graphs: `c2GraphB` reorders the
resources and edges of `c2GraphA`, rewrites metadata and renews the
version, and the two canonical hashes coincide. -/
theorem C2_canonical_hash_invariance_witness :
    (List.Perm (c2GraphB.resources.map Resource.core)
        (c2GraphA.resources.map Resource.core)
      ∧ List.Perm c2GraphB.edges c2GraphA.edges
      ∧ (c2GraphA.resources.map Resource.id).Nodup)
    ∧ stable_graph_hash c2GraphB = stable_graph_hash c2GraphA :=
  ⟨⟨by decide, by decide, by decide⟩,
    C2_canonical_hash_invariance c2GraphB c2GraphA
      (by decide) (by decide) (by decide)⟩

/-- C10 (implicit): the canonical hash reads only the metadata-stripped
resource dumps and the edges, so it also ignores `graph_phase` and
`reasoning`; two graphs with the same resources (up to metadata) and the
same edges hash equal even when one is labeled "reasoned" and the other
"implementation".  This is what keeps the architecture loop's fixed-point
comparison well-defined when the implementation-phase output is fed back
as the next iteration's input. -/
theorem C10_hash_ignores_phase_and_reasoning (g1 g2 : GraphState)
    (hres : g1.resources.map Resource.core = g2.resources.map Resource.core)
    (hedg : g1.edges = g2.edges) :
    stable_graph_hash g1 = stable_graph_hash g2 := by
  simp only [stable_graph_hash, hres, hedg]

/-- Witness for C10: a reasoned-phase and an implementation-phase graph
with the same resources and edges but different phase, version and
reasoning receive the same canonical hash. -/
theorem C10_hash_ignores_phase_and_reasoning_witness :
    c10GraphReasoned.graph_phase ≠ c10GraphImpl.graph_phase
    ∧ stable_graph_hash c10GraphReasoned = stable_graph_hash c10GraphImpl :=
  ⟨by decide,
    C10_hash_ignores_phase_and_reasoning c10GraphReasoned c10GraphImpl
      rfl rfl⟩

/-! Association-list dictionary lemmas. -/

theorem dictGet_cons (kv : String × MVal) (rest : List (String × MVal))
    (k : String) :
    dictGet (kv :: rest) k = if kv.1 = k then some kv.2 else dictGet rest k := by
  by_cases h : kv.1 = k
  · rw [dictGet, List.find?_cons_of_pos _ (by simp [h]), if_pos h]; rfl
  · rw [dictGet, List.find?_cons_of_neg _ (by simp [h]), if_neg h]; rfl

theorem dictGet_dictSet_same (m : List (String × MVal)) (k : String)
    (v : MVal) : dictGet (dictSet m k v) k = some v := by
  induction m with
  | nil => simp [dictGet, dictSet, List.find?]
  | cons kv rest ih =>
    by_cases h : kv.1 = k
    · simp [dictSet, h, dictGet_cons]
    · simp [dictSet, h, dictGet_cons, ih]

theorem dictGet_dictSet_ne (m : List (String × MVal)) (k k2 : String)
    (v : MVal) (h : k2 ≠ k) : dictGet (dictSet m k2 v) k = dictGet m k := by
  induction m with
  | nil =>
    show dictGet ((k2, v) :: []) k = dictGet [] k
    simp [dictGet_cons, h]
  | cons kv rest ih =>
    by_cases h1 : kv.1 = k2
    · simp [dictSet, h1, dictGet_cons, h]
    · simp [dictSet, h1, dictGet_cons, ih]

/-- C5 (amended): the cost runner sets `metadata.cost_estimate` to the
string "$N/mo" where N is the sum over resources of the substring rule
table applied in if/elif order (instance 40, else lb 20, else nat 30,
else db 60, otherwise 0); a graph with one compute instance and one
database resource whose type does not contain "instance"
(`dynamodb_table`) yields "$100/mo". -/
theorem C5_cost_estimate_rule (g : GraphState) (vid : String) :
    dictGet (calculate_cost_gen g vid).2.metadata "cost_estimate"
      = some (MVal.str ("$"
          ++ toString ((g.resources.map
                (fun r => resource_unit_cost r.type)).sum) ++ "/mo"))
    ∧ dictGet (calculate_cost_gen c5DynamoGraph vid).2.metadata
        "cost_estimate" = some (MVal.str "$100/mo") := by
  constructor
  · simp only [calculate_cost_gen]
    rw [dictGet_dictSet_ne _ _ _ _ (by decide),
      dictGet_dictSet_ne _ _ _ _ (by decide), dictGet_dictSet_same]
  · rfl

/-- C5 counterexample to the claim as stated: with the repository's
concrete compute-instance type `aws_instance` and concrete database type
`aws_db_instance`, the if/elif chain prices the database as an instance
(40), so the estimate is "$80/mo", not "$100/mo". -/
theorem C5_claim_counterexample :
    dictGet (calculate_cost_gen c5RdsGraph "version-c5").2.metadata
        "cost_estimate" = some (MVal.str "$80/mo")
    ∧ MVal.str "$80/mo" ≠ MVal.str "$100/mo" :=
  ⟨rfl, by decide⟩

/-! Policy-loop lemmas. -/

theorem PolicyCur.resources_toGraphState (c : PolicyCur) :
    c.toGraphState.resources = c.resources := by
  cases c <;> rfl

theorem mem_of_policyMissing_eq_nil {intent : GraphState} {resp : PolicyResp}
    (h : policyMissing intent resp = []) {i : String}
    (hi : i ∈ intent.resources.map Resource.id) :
    i ∈ resp.resources.map Resource.id := by
  have h2 := (List.filter_eq_nil_iff).mp h i hi
  simpa using h2

theorem apply_policies_gen_ids (intent : GraphState)
    (model : Nat → PolicyResp) :
    ∀ fuel cycle cur,
      (∀ i, i ∈ intent.resources.map Resource.id →
        i ∈ cur.resources.map Resource.id) →
      ∀ i, i ∈ intent.resources.map Resource.id →
        i ∈ ((apply_policies_gen intent model cycle fuel
          cur).2).resources.map Resource.id := by
  intro fuel
  induction fuel with
  | zero =>
    intro cycle cur hcur i hi
    simpa [apply_policies_gen] using hcur i hi
  | succ fuel ih =>
    intro cycle cur hcur i hi
    by_cases h1 : policyMissing intent (model cycle) ≠ []
    · simpa [apply_policies_gen, h1] using ih (cycle + 1) cur hcur i hi
    · have hmiss : policyMissing intent (model cycle) = [] := not_not.mp h1
      by_cases h2 : policyTypeViolations intent (model cycle) ≠ []
      · simpa [apply_policies_gen, h1, h2] using ih (cycle + 1) cur hcur i hi
      · by_cases h3 : (model cycle).violations_remaining == 0
        · have hmem := mem_of_policyMissing_eq_nil hmiss hi
          simpa [apply_policies_gen, h1, h2, h3, PolicyCur.resources]
            using hmem
        · have hstep : ∀ j, j ∈ intent.resources.map Resource.id →
              j ∈ (PolicyCur.fromResp (model cycle)).resources.map
                Resource.id :=
            fun j hj => mem_of_policyMissing_eq_nil hmiss hj
          simpa [apply_policies_gen, h1, h2, h3] using
            ih (cycle + 1) _ hstep i hi

/-- C1: in every run of the policy loop, a cycle whose model response is
missing an id of the input intent graph is rejected (the CRITICAL log is
emitted) and the loop re-enters with the same `current_data`; and the
final reasoned graph contains every resource id of the intent graph, for
every model behaviour, including the one where all three cycles are
rejected. -/
theorem C1_policy_monotonicity (intent : GraphState)
    (model : Nat → PolicyResp) :
    (∀ cycle fuel cur, policyMissing intent (model cycle) ≠ [] →
      apply_policies_gen intent model cycle (fuel + 1) cur
        = ([policyCycleHeader cycle] ++ policyThoughtEvents (model cycle)
          ++ policyRejectEvents (policyMissing intent (model cycle))
          ++ (apply_policies_gen intent model (cycle + 1) fuel cur).1,
          (apply_policies_gen intent model (cycle + 1) fuel cur).2))
    ∧ (∀ i, i ∈ intent.resources.map Resource.id →
        i ∈ (apply_policies intent model).2.resources.map Resource.id) := by
  constructor
  · intro cycle fuel cur h
    simp [apply_policies_gen, h]
  · intro i hi
    have h := apply_policies_gen_ids intent model 3 0
      (PolicyCur.fromIntent intent) (fun j hj => hj) i hi
    simpa [apply_policies, PolicyCur.resources_toGraphState,
      PolicyCur.resources] using h

/-- Witness for C1: a model that drops `db` in every cycle is rejected at
cycle 0 with `current_data` unchanged, and after all three rejections the
final reasoned graph still contains `db`. -/
theorem C1_policy_monotonicity_witness :
    policyMissing c1Intent (c1DropDbModel 0) ≠ []
    ∧ (apply_policies_gen c1Intent c1DropDbModel 0 3
        (PolicyCur.fromIntent c1Intent)
      = ([policyCycleHeader 0] ++ policyThoughtEvents (c1DropDbModel 0)
        ++ policyRejectEvents (policyMissing c1Intent (c1DropDbModel 0))
        ++ (apply_policies_gen c1Intent c1DropDbModel 1 2
          (PolicyCur.fromIntent c1Intent)).1,
        (apply_policies_gen c1Intent c1DropDbModel 1 2
          (PolicyCur.fromIntent c1Intent)).2))
    ∧ "db" ∈ (apply_policies c1Intent c1DropDbModel).2.resources.map
        Resource.id :=
  ⟨by decide,
    (C1_policy_monotonicity c1Intent c1DropDbModel).1 0 2
      (PolicyCur.fromIntent c1Intent) (by decide),
    (C1_policy_monotonicity c1Intent c1DropDbModel).2 "db" (by decide)⟩

/-- C8 (amended): the expansion runner emits the abstract-type warning
exactly for the four checked types compute_service, relational_database,
object_storage and load_balancer: whenever a resource of the expanded
graph has one of those types, the warning event naming the remaining
abstract resources is emitted and names that resource. -/
theorem C8_abstract_warning (reasoned g : GraphState) (r : Resource)
    (hr : r ∈ g.resources) (ht : r.type ∈ abstract_types) :
    ExpEvent.warnAbstract (expansionAbstractRemaining g)
        ∈ expansionValidationEvents reasoned g
    ∧ r.id ∈ expansionAbstractRemaining g := by
  have hid : r.id ∈ expansionAbstractRemaining g := by
    apply List.mem_map_of_mem
    rw [List.mem_filter]
    exact ⟨hr, by simpa using ht⟩
  refine ⟨?_, hid⟩
  have hne : expansionAbstractRemaining g ≠ [] :=
    List.ne_nil_of_mem hid
  simp only [expansionValidationEvents, List.mem_append, List.mem_singleton]
  right
  rw [if_pos hne]
  exact List.mem_singleton_self _

/-- Witness for C8: `c8AbstractGraph` keeps the abstract `compute_service`
type on `web`, and the warning event naming `web` is emitted. -/
theorem C8_abstract_warning_witness :
    (c8WebAbstract ∈ c8AbstractGraph.resources
      ∧ c8WebAbstract.type ∈ abstract_types)
    ∧ ExpEvent.warnAbstract (expansionAbstractRemaining c8AbstractGraph)
        ∈ expansionValidationEvents c8QueueReasoned c8AbstractGraph
    ∧ c8WebAbstract.id ∈ expansionAbstractRemaining c8AbstractGraph :=
  ⟨⟨by decide, by decide⟩,
    C8_abstract_warning c8QueueReasoned c8AbstractGraph c8WebAbstract
      (by decide) (by decide)⟩

/-- C8 counterexample to the claim as stated: `message_queue` belongs to
the spec's closed semantic set, yet for a graph whose only resource has
that type no abstract-type warning is emitted, because agent.py 450 checks
only four of the nine semantic types. -/
theorem C8_claim_counterexample :
    "message_queue" ∈ specSemanticTypeSet
    ∧ "message_queue" ∉ abstract_types
    ∧ expansionAbstractRemaining c8QueueGraph = []
    ∧ (expansionValidationEvents c8QueueReasoned c8QueueGraph).all
        (fun e => match e with
          | ExpEvent.warnAbstract _ => false
          | _ => true) = true := by
  refine ⟨by decide, by decide, by decide, ?_⟩
  rfl

/-- C7 is a code bug (agent.py 423): the retry branch of the expansion
model call yields `send("log", ...)`, but no `send` is bound in that
scope, so the first transient backend error ("503"/"429" in the message)
raises `NameError` instead of logging and retrying up to five times;
non-transient errors do propagate immediately as the claim says. -/
theorem C7_transient_retry_code_bug :
    expandArchResolves "send" = false
    ∧ expand_architecture_model_call
        (fun _ => ModelCall.raisedErr "503 Service Unavailable")
      = PyResult.nameError "send"
    ∧ isTransientErr "503 Service Unavailable" = true
    ∧ expand_architecture_model_call
        (fun _ => ModelCall.raisedErr "400 Bad Request")
      = PyResult.raised "400 Bad Request"
    ∧ isTransientErr "400 Bad Request" = false := by
  refine ⟨rfl, ?_, by decide, ?_, by decide⟩ <;> rfl

/-- C4 is a code bug (agent.py 154-173 with 62-96): `hard_reset` clears
every in-memory slot, but the `save_state_to_disk` it calls to "wipe
files" skips every graph file whose slot is now `None`, so the prior
session's graph files survive on disk and the next startup load finds the
old graph states again — contrary to the claim and to the source's own
comments. -/
theorem C4_hard_reset_code_bug :
    (hard_reset (load_full_state c4PriorDisk) c4PriorDisk).1 = freshAgentMem
    ∧ ((hard_reset (load_full_state c4PriorDisk) c4PriorDisk).2
        ).intent_graph_json = some c1Intent
    ∧ ((hard_reset (load_full_state c4PriorDisk) c4PriorDisk).2
        ).implementation_graph_json = some c5RdsGraph
    ∧ (load_full_state
        ((hard_reset (load_full_state c4PriorDisk) c4PriorDisk).2)
        ).implementation_graph = some c5RdsGraph :=
  ⟨rfl, rfl, rfl, rfl⟩

/-! Reachability lemmas for the blast radius. -/

theorem mem_nxSuccs {g : GraphState} {a b : String} :
    b ∈ nxSuccs g a ↔ edgeStep g a b := by
  constructor
  · intro h
    obtain ⟨e, he, htgt⟩ := List.mem_map.mp h
    obtain ⟨hmem, hsrc⟩ := List.mem_filter.mp he
    exact ⟨e, hmem, by simpa using hsrc, htgt⟩
  · rintro ⟨e, hmem, hsrc, htgt⟩
    exact List.mem_map.mpr
      ⟨e, List.mem_filter.mpr ⟨hmem, by simpa using hsrc⟩, htgt⟩

theorem nxSuccs_subset_nodes {g : GraphState} {a b : String}
    (h : b ∈ nxSuccs g a) : b ∈ nxNodes g := by
  obtain ⟨e, hmem, _, htgt⟩ := mem_nxSuccs.mp h
  subst htgt
  exact List.mem_append.mpr
    (Or.inr (List.mem_flatMap.mpr ⟨e, hmem, by simp⟩))

theorem subset_reachStep (g : GraphState) (s : Finset String) :
    s ⊆ reachStep g s := Finset.subset_union_left

theorem reachStep_subset {g : GraphState} {s U : Finset String}
    (hU : ∀ b, b ∈ nxNodes g → b ∈ U) (hs : s ⊆ U) :
    reachStep g s ⊆ U := by
  intro x hx
  rcases Finset.mem_union.mp hx with h | h
  · exact hs h
  · obtain ⟨n, _, hxn⟩ := Finset.mem_biUnion.mp h
    exact hU x (nxSuccs_subset_nodes (List.mem_toFinset.mp hxn))

theorem iterate_eventually_fixed {α : Type} [DecidableEq α]
    (f : Finset α → Finset α) (U : Finset α)
    (hgrow : ∀ s, s ⊆ f s) (hbound : ∀ s, s ⊆ U → f s ⊆ U)
    (s0 : Finset α) (h0 : s0 ⊆ U) :
    f (f^[U.card] s0) = f^[U.card] s0 := by
  have hin : ∀ k, f^[k] s0 ⊆ U := by
    intro k
    induction k with
    | zero => simpa using h0
    | succ k ih => rw [Function.iterate_succ_apply']; exact hbound _ ih
  have hex : ∃ k, k ≤ U.card ∧ f (f^[k] s0) = f^[k] s0 := by
    by_contra hcon
    push_neg at hcon
    have hstrict : ∀ k, k ≤ U.card + 1 → k ≤ (f^[k] s0).card := by
      intro k
      induction k with
      | zero => intro _; exact Nat.zero_le _
      | succ k ih =>
        intro hk
        have hk2 : k ≤ U.card := by omega
        have h1 : k ≤ (f^[k] s0).card := ih (by omega)
        have hne : f (f^[k] s0) ≠ f^[k] s0 := hcon k hk2
        have hss : f^[k] s0 ⊂ f (f^[k] s0) :=
          HasSubset.Subset.ssubset_of_ne (hgrow _) (Ne.symm hne)
        have hcard : (f^[k] s0).card < (f (f^[k] s0)).card :=
          Finset.card_lt_card hss
        rw [Function.iterate_succ_apply']
        omega
    have h2 := hstrict (U.card + 1) le_rfl
    have h3 : (f^[U.card + 1] s0).card ≤ U.card :=
      Finset.card_le_card (hin _)
    omega
  obtain ⟨k, hk, hfix⟩ := hex
  have hprop : ∀ m, f^[m] (f^[k] s0) = f^[k] s0 := by
    intro m
    induction m with
    | zero => rfl
    | succ m ih => rw [Function.iterate_succ_apply', ih, hfix]
  have heq : f^[U.card] s0 = f^[k] s0 := by
    have hsplit : U.card = (U.card - k) + k := (Nat.sub_add_cancel hk).symm
    rw [hsplit, Function.iterate_add_apply, hprop]
  rw [heq, hfix]

theorem reach_iterate_sound {g : GraphState} {t : String} :
    ∀ k x, x ∈ (reachStep g)^[k] {t} →
      Relation.ReflTransGen (edgeStep g) t x := by
  intro k
  induction k with
  | zero =>
    intro x hx
    have hx2 : x = t := by simpa using hx
    subst hx2
    exact Relation.ReflTransGen.refl
  | succ k ih =>
    intro x hx
    rw [Function.iterate_succ_apply'] at hx
    simp only [reachStep, Finset.mem_union, Finset.mem_biUnion,
      List.mem_toFinset] at hx
    rcases hx with h | ⟨n, hn, hxn⟩
    · exact ih x h
    · exact Relation.ReflTransGen.tail (ih n hn) (mem_nxSuccs.mp hxn)

theorem self_mem_reach_iterate {g : GraphState} {t : String} (k : Nat) :
    t ∈ (reachStep g)^[k] {t} := by
  induction k with
  | zero => simp
  | succ k ih =>
    rw [Function.iterate_succ_apply']
    exact subset_reachStep g _ ih

theorem reachSet_complete {g : GraphState} {t x : String}
    (h : Relation.ReflTransGen (edgeStep g) t x) : x ∈ reachSet g t := by
  have hU : ∀ b, b ∈ nxNodes g → b ∈ insert t (nxNodes g).toFinset :=
    fun b hb => Finset.mem_insert_of_mem (List.mem_toFinset.mpr hb)
  have hfix : reachStep g (reachSet g t) = reachSet g t := by
    apply iterate_eventually_fixed (reachStep g)
      (insert t (nxNodes g).toFinset) (subset_reachStep g)
      (fun s hs => reachStep_subset hU hs)
    intro y hy
    have hy2 : y = t := by simpa using hy
    subst hy2
    exact Finset.mem_insert_self _ _
  induction h with
  | refl => exact self_mem_reach_iterate _
  | tail _ h2 ih =>
    have hmem : _ ∈ reachStep g (reachSet g t) :=
      Finset.mem_union_right _ (Finset.mem_biUnion.mpr
        ⟨_, ih, List.mem_toFinset.mpr (mem_nxSuccs.mpr h2)⟩)
    rwa [hfix] at hmem

/-- C9 (amended): the blast-radius affected set returned for `t` is the
set of descendants of `t` in the full directed graph, over edges of every
relation — no relation filter is applied — and is empty when `t` is not a
node of the graph. -/
theorem C9_blast_radius_all_relations (g : GraphState) (t n : String) :
    n ∈ simulate_blast_radius g t
      ↔ ((nxNodes g).contains t = true ∧ n ≠ t
          ∧ Relation.TransGen (edgeStep g) t n) := by
  by_cases h : (nxNodes g).contains t = true
  · unfold simulate_blast_radius
    rw [if_pos h, Finset.mem_erase]
    constructor
    · rintro ⟨hne, hmem⟩
      have hmem2 : n ∈ (reachStep g)^[(insert t
          (nxNodes g).toFinset).card] {t} := hmem
      have hrtg := reach_iterate_sound _ n hmem2
      rcases Relation.reflTransGen_iff_eq_or_transGen.mp hrtg with
        heq | htg
      · exact absurd heq hne
      · exact ⟨h, hne, htg⟩
    · rintro ⟨_, hne, htg⟩
      exact ⟨hne, reachSet_complete htg.to_reflTransGen⟩
  · unfold simulate_blast_radius
    rw [if_neg h]
    simp only [Finset.not_mem_empty, false_iff]
    rintro ⟨hc, _, _⟩
    exact h hc

/-- C9 counterexample to the claim as stated: in a graph whose only edge
is a `connects_to` edge from `a` to `b`, the code reports `b` in the blast
radius of `a`, while the contains-relation subgraph of the spec has no
descendants of `a` at all — so edges of other relations do participate in
the descendant calculation. -/
theorem C9_claim_counterexample :
    "b" ∈ simulate_blast_radius c9Graph "a"
    ∧ ¬ specContainsAffected c9Graph "a" "b" := by
  constructor
  · decide
  · rintro ⟨_, htg⟩
    have hno : ∀ x y, ¬ containsStep c9Graph x y := by
      rintro x y ⟨e, he, hrel, _, _⟩
      have he3 : e ∈ [c9Edge] := he
      rw [List.mem_singleton.mp he3] at hrel
      exact absurd hrel (by decide)
    cases htg with
    | single h => exact hno _ _ h
    | tail h1 h2 => exact hno _ _ h2

/-! Stream-termination lemmas. -/

theorem forward_no_terminal (x : RecKind)
    (hx : x = RecKind.control ∨ x = RecKind.result ∨ x = RecKind.error)
    (evs : List SubKind) :
    x ∉ policyForward evs ∧ x ∉ expandForward evs
      ∧ x ∉ verifyForward evs ∧ x ∉ costForward evs := by
  refine ⟨?_, ?_, ?_, ?_⟩ <;>
    · intro hmem
      obtain ⟨e, _, he⟩ := List.mem_map.mp hmem
      cases e <;> rcases hx with rfl | rfl | rfl <;>
        simp [SubKind.toRec] at he

theorem archLoopAux_no_terminal (cycles : Nat → CycleOutcome) (x : RecKind)
    (hx : x = RecKind.control ∨ x = RecKind.result ∨ x = RecKind.error) :
    ∀ fuel gc prev, x ∉ (archLoopAux cycles gc fuel prev).1 := by
  have hxlog : x ≠ RecKind.log := by
    rcases hx with rfl | rfl | rfl <;> simp
  have hxdec : x ≠ RecKind.decision := by
    rcases hx with rfl | rfl | rfl <;> simp
  intro fuel
  induction fuel with
  | zero => intro gc prev; simp [archLoopAux]
  | succ fuel ih =>
    intro gc prev
    have hf := forward_no_terminal x hx
    intro hmem
    by_cases hp : prev = some (cycles gc).hash <;>
      by_cases hgc : gc > 0 <;>
      (simp only [archLoopAux, hp, hgc, if_true, if_false, ite_true,
        ite_false, List.mem_append, List.mem_singleton, List.not_mem_nil,
        or_false, false_or] at hmem
       casesm* _ ∨ _ <;>
       first
        | exact hxlog ‹x = RecKind.log›
        | exact hxdec ‹x = RecKind.decision›
        | exact (hf _).1 ‹x ∈ policyForward _›
        | exact (hf _).2.1 ‹x ∈ expandForward _›
        | exact (hf _).2.2.1 ‹x ∈ verifyForward _›
        | exact ih _ _ ‹x ∈ (archLoopAux cycles _ fuel _).1›)

theorem getLast?_extend {α : Type} (a : α) (l1 l2 : List α) (x : α)
    (h : l2.getLast? = some x) : (a :: (l1 ++ l2)).getLast? = some x := by
  have h2 : (l1 ++ l2).getLast? = some x := by
    rw [List.getLast?_append, h]; rfl
  rw [show a :: (l1 ++ l2) = [a] ++ (l1 ++ l2) from rfl,
    List.getLast?_append, h2]; rfl

theorem generate_intent_stream_terminal (failures : Nat)
    (o : IntentOutcome) :
    ((generate_intent_stream failures o).getLast? = some RecKind.control
      ∧ RecKind.error ∉ generate_intent_stream failures o
      ∧ RecKind.result ∉ generate_intent_stream failures o)
    ∨ ((generate_intent_stream failures o).getLast? = some RecKind.error
      ∧ (generate_intent_stream failures o).count RecKind.error = 1
      ∧ RecKind.control ∉ generate_intent_stream failures o
      ∧ RecKind.result ∉ generate_intent_stream failures o) := by
  by_cases h5 : failures ≥ 5
  · right
    simp [generate_intent_stream, h5, List.getLast?_append,
      List.count_append, List.count_replicate, List.mem_replicate]
  · cases o with
    | parsed g =>
      left
      simp [generate_intent_stream, h5, List.mem_replicate]
      exact getLast?_extend _ _ _ _ rfl
    | noJson =>
      right
      simp [generate_intent_stream, h5, List.count_append,
        List.count_replicate, List.mem_replicate]
      exact getLast?_extend _ _ _ _ rfl
    | fatal m =>
      right
      simp [generate_intent_stream, h5, List.count_append,
        List.count_replicate, List.mem_replicate]
      exact getLast?_extend _ _ _ _ rfl

theorem stream_expanded_architecture_terminal (sp : Bool)
    (cycles : Nat → CycleOutcome) (cost : List SubKind) :
    ((stream_expanded_architecture sp cycles cost).getLast?
        = some RecKind.control
      ∧ RecKind.error ∉ stream_expanded_architecture sp cycles cost
      ∧ RecKind.result ∉ stream_expanded_architecture sp cycles cost)
    ∨ ((stream_expanded_architecture sp cycles cost).getLast?
        = some RecKind.error
      ∧ (stream_expanded_architecture sp cycles cost).count RecKind.error
          = 1
      ∧ RecKind.control ∉ stream_expanded_architecture sp cycles cost
      ∧ RecKind.result ∉ stream_expanded_architecture sp cycles cost) := by
  cases sp with
  | false => right; simp [stream_expanded_architecture]
  | true =>
    left
    have hrunE := archLoopAux_no_terminal cycles RecKind.error
      (Or.inr (Or.inr rfl)) 3 0 none
    have hrunR := archLoopAux_no_terminal cycles RecKind.result
      (Or.inr (Or.inl rfl)) 3 0 none
    have hcostE := (forward_no_terminal RecKind.error
      (Or.inr (Or.inr rfl)) cost).2.2.2
    have hcostR := (forward_no_terminal RecKind.result
      (Or.inr (Or.inl rfl)) cost).2.2.2
    by_cases hconv : (archLoopAux cycles 0 3 none).2
    · simp [stream_expanded_architecture, hconv, List.mem_append,
        hrunE, hrunR, hcostE, hcostR]
      exact getLast?_extend _ _ _ _ (by rw [List.getLast?_append]; rfl)
    · simp [stream_expanded_architecture, hconv, List.mem_append,
        hrunE, hrunR, hcostE, hcostR]
      exact getLast?_extend _ _ _ _ (getLast?_extend _ _ _ _ rfl)

/-- C3 (amended): the intent-generation stream and the architecture-loop
stream each end with exactly one terminal record, but on their success
paths that record is the `control` record asking for user confirmation,
not `result`; only their failure paths end with a single `error` record,
and neither stream ever emits a `result` record.  (The code-generation
stream is the one that ends with `result` or `error`.) -/
theorem C3_stream_termination (failures : Nat) (o : IntentOutcome)
    (sp : Bool) (cycles : Nat → CycleOutcome) (cost : List SubKind) :
    (((generate_intent_stream failures o).getLast? = some RecKind.control
      ∧ RecKind.error ∉ generate_intent_stream failures o
      ∧ RecKind.result ∉ generate_intent_stream failures o)
    ∨ ((generate_intent_stream failures o).getLast? = some RecKind.error
      ∧ (generate_intent_stream failures o).count RecKind.error = 1
      ∧ RecKind.control ∉ generate_intent_stream failures o
      ∧ RecKind.result ∉ generate_intent_stream failures o))
    ∧ (((stream_expanded_architecture sp cycles cost).getLast?
        = some RecKind.control
      ∧ RecKind.error ∉ stream_expanded_architecture sp cycles cost
      ∧ RecKind.result ∉ stream_expanded_architecture sp cycles cost)
    ∨ ((stream_expanded_architecture sp cycles cost).getLast?
        = some RecKind.error
      ∧ (stream_expanded_architecture sp cycles cost).count RecKind.error
          = 1
      ∧ RecKind.control ∉ stream_expanded_architecture sp cycles cost
      ∧ RecKind.result ∉ stream_expanded_architecture sp cycles cost)) :=
  ⟨generate_intent_stream_terminal failures o,
    stream_expanded_architecture_terminal sp cycles cost⟩

/-- C3 counterexample to the claim as stated: a successful
intent-generation run ends with a `control` record — a control record
does terminate the stream, and no `result` or `error` record occurs. -/
theorem C3_claim_counterexample :
    (generate_intent_stream 0 (IntentOutcome.parsed c1Intent)).getLast?
        = some RecKind.control
    ∧ RecKind.result ∉ generate_intent_stream 0
        (IntentOutcome.parsed c1Intent)
    ∧ RecKind.error ∉ generate_intent_stream 0
        (IntentOutcome.parsed c1Intent) := by
  refine ⟨rfl, by decide, by decide⟩

/-! Pipeline lemmas. -/

theorem countStageRuns_append (name : String) (l1 l2 : List PipeEv) :
    countStageRuns name (l1 ++ l2)
      = countStageRuns name l1 + countStageRuns name l2 := by
  simp [countStageRuns, List.filter_append]

theorem countStageRuns_reclass (c : Prop) [Decidable c] (a : Nat) :
    countStageRuns "validate"
      (if c then [PipeEv.ranStage "verify" a true] else []) = 0 := by
  split <;> rfl

theorem run_pipeline_loop_validate_count (env : PipeEnv) (mode : String)
    (sim : Bool) :
    ∀ fuel attempt hcl,
      countStageRuns "validate"
        (run_pipeline_loop env mode sim attempt fuel hcl).1 ≤ fuel := by
  intro fuel
  induction fuel with
  | zero => intro attempt hcl; simp [run_pipeline_loop, countStageRuns]
  | succ fuel ih =>
    intro attempt hcl
    by_cases hv : (env.validate attempt).failed = true
    · have h := ih (attempt + 1) (env.fix hcl (env.validate attempt).error)
      simp only [run_pipeline_loop, hv, if_true]
      rw [countStageRuns_append]
      rw [show countStageRuns "validate"
        [PipeEv.ranStage "validate" attempt true,
         PipeEv.fixing "terraform validate" attempt,
         PipeEv.wroteFiles (env.fix hcl (env.validate attempt).error)]
        = 1 from rfl]
      omega
    · simp only [Bool.not_eq_true] at hv
      by_cases hd : mode = "draft"
      · by_cases hs : sim = true
        · simp only [run_pipeline_loop, hv, hd, hs, Bool.not_true,
            Bool.false_eq_true, if_true, if_false, ite_true, ite_false]
          rw [show countStageRuns "validate"
            [PipeEv.ranStage "validate" attempt false,
             PipeEv.ranStage "plan" attempt false,
             PipeEv.ranStage "apply" attempt false,
             PipeEv.ranStage "verify" attempt false] = 1 from rfl]
          omega
        · simp only [Bool.not_eq_true] at hs
          simp only [run_pipeline_loop, hv, hd, hs, Bool.not_false,
            Bool.false_eq_true, if_true, if_false, ite_true, ite_false]
          rw [show countStageRuns "validate"
            [PipeEv.ranStage "validate" attempt false] = 1 from rfl]
          omega
      · by_cases ha : (env.applyStage attempt).failed = true
        · have h := ih (attempt + 1)
            (env.fix hcl (env.applyStage attempt).error)
          simp only [run_pipeline_loop, hv, hd, ha, Bool.false_eq_true,
            if_true, if_false, ite_true, ite_false]
          rw [countStageRuns_append]
          rw [show countStageRuns "validate"
            [PipeEv.ranStage "validate" attempt false,
             PipeEv.ranStage "plan" attempt (env.plan attempt).failed,
             PipeEv.ranStage "apply" attempt true,
             PipeEv.fixing "terraform apply" attempt,
             PipeEv.wroteFiles (env.fix hcl (env.applyStage attempt).error)]
            = 1 from rfl]
          omega
        · simp only [Bool.not_eq_true] at ha
          simp only [run_pipeline_loop, hv, hd, ha, Bool.false_eq_true,
            if_true, if_false, ite_true, ite_false]
          rw [countStageRuns_append]
          rw [show countStageRuns "validate"
            [PipeEv.ranStage "validate" attempt false,
             PipeEv.ranStage "plan" attempt (env.plan attempt).failed,
             PipeEv.ranStage "apply" attempt false,
             PipeEv.ranStage "verify" attempt
               (env.verify attempt).failed] = 1 from rfl]
          rw [countStageRuns_reclass]
          omega

theorem run_pipeline_no_plan_fix (env : PipeEnv) (mode : String)
    (sim : Bool) (a : Nat) :
    ∀ fuel attempt hcl,
      PipeEv.fixing "terraform plan" a
        ∉ (run_pipeline_loop env mode sim attempt fuel hcl).1 := by
  intro fuel
  induction fuel with
  | zero => intro attempt hcl; simp [run_pipeline_loop]
  | succ fuel ih =>
    intro attempt hcl hmem
    by_cases hv : (env.validate attempt).failed = true
    · simp only [run_pipeline_loop, hv, if_true] at hmem
      rcases List.mem_append.mp hmem with h | h
      · simp at h
      · exact ih _ _ h
    · simp only [Bool.not_eq_true] at hv
      by_cases hd : mode = "draft"
      · by_cases hs : sim = true
        · simp only [run_pipeline_loop, hv, hd, hs, Bool.not_true,
            Bool.false_eq_true, if_true, if_false, ite_true,
            ite_false] at hmem
          simp at hmem
        · simp only [Bool.not_eq_true] at hs
          simp only [run_pipeline_loop, hv, hd, hs, Bool.not_false,
            Bool.false_eq_true, if_true, if_false, ite_true,
            ite_false] at hmem
          simp at hmem
      · by_cases ha : (env.applyStage attempt).failed = true
        · simp only [run_pipeline_loop, hv, hd, ha, Bool.false_eq_true,
            if_true, if_false, ite_true, ite_false] at hmem
          rcases List.mem_append.mp hmem with h | h
          · simp at h
          · exact ih _ _ h
        · simp only [Bool.not_eq_true] at ha
          simp only [run_pipeline_loop, hv, hd, ha, Bool.false_eq_true,
            if_true, if_false, ite_true, ite_false] at hmem
          rcases List.mem_append.mp hmem with h | h
          · simp at h
          · split at h <;> simp at h

/-- C6 (amended): whenever the Validate or Apply stage fails, the repair
step produces new HCL from the failing stage's error, `main.tf` is
rewritten, and the pipeline restarts from Validate with the repaired HCL;
the whole run is bounded to three attempts; but a Plan-stage failure
triggers no repair — the pipeline continues to Apply within the same
attempt, and no repair with context "terraform plan" ever occurs. -/
theorem C6_pipeline_selfheal (env : PipeEnv) (hcl : String) (sim : Bool)
    (attempt fuel : Nat) :
    ((env.validate attempt).failed = true →
      run_pipeline_loop env "deploy" sim attempt (fuel + 1) hcl
        = ([PipeEv.ranStage "validate" attempt true,
            PipeEv.fixing "terraform validate" attempt,
            PipeEv.wroteFiles (env.fix hcl (env.validate attempt).error)]
          ++ (run_pipeline_loop env "deploy" sim (attempt + 1) fuel
              (env.fix hcl (env.validate attempt).error)).1,
          (run_pipeline_loop env "deploy" sim (attempt + 1) fuel
            (env.fix hcl (env.validate attempt).error)).2))
    ∧ ((env.validate attempt).failed = false →
        (env.applyStage attempt).failed = true →
      run_pipeline_loop env "deploy" sim attempt (fuel + 1) hcl
        = ([PipeEv.ranStage "validate" attempt false,
            PipeEv.ranStage "plan" attempt (env.plan attempt).failed,
            PipeEv.ranStage "apply" attempt true,
            PipeEv.fixing "terraform apply" attempt,
            PipeEv.wroteFiles
              (env.fix hcl (env.applyStage attempt).error)]
          ++ (run_pipeline_loop env "deploy" sim (attempt + 1) fuel
              (env.fix hcl (env.applyStage attempt).error)).1,
          (run_pipeline_loop env "deploy" sim (attempt + 1) fuel
            (env.fix hcl (env.applyStage attempt).error)).2))
    ∧ countStageRuns "validate" (run_pipeline env hcl "deploy" sim).1 ≤ 3
    ∧ (∀ a, PipeEv.fixing "terraform plan" a
        ∉ (run_pipeline env hcl "deploy" sim).1) := by
  refine ⟨?_, ?_, ?_, ?_⟩
  · intro hv
    simp [run_pipeline_loop, hv]
  · intro hv ha
    simp [run_pipeline_loop, hv, ha]
  · have h := run_pipeline_loop_validate_count env "deploy" sim 3 0 hcl
    simpa [run_pipeline, countStageRuns, List.filter_cons] using h
  · intro a hmem
    have h := run_pipeline_no_plan_fix env "deploy" sim a 3 0 hcl
    simp only [run_pipeline, List.mem_cons] at hmem
    rcases hmem with heq | hmem
    · exact PipeEv.noConfusion heq
    · exact h hmem

/-- Witness for C6 at a concrete environment whose Validate stage fails on
the first attempt: the run repairs the HCL, rewrites `main.tf` and
restarts from Validate with the repaired HCL. -/
theorem C6_pipeline_selfheal_witness :
    (c6ValFailEnv.validate 0).failed = true
    ∧ run_pipeline_loop c6ValFailEnv "deploy" false 0 3 "hcl-0"
      = ([PipeEv.ranStage "validate" 0 true,
          PipeEv.fixing "terraform validate" 0,
          PipeEv.wroteFiles
            (c6ValFailEnv.fix "hcl-0" (c6ValFailEnv.validate 0).error)]
        ++ (run_pipeline_loop c6ValFailEnv "deploy" false 1 2
            (c6ValFailEnv.fix "hcl-0"
              (c6ValFailEnv.validate 0).error)).1,
        (run_pipeline_loop c6ValFailEnv "deploy" false 1 2
          (c6ValFailEnv.fix "hcl-0"
            (c6ValFailEnv.validate 0).error)).2) :=
  ⟨rfl, (C6_pipeline_selfheal c6ValFailEnv "hcl-0" false 0 2).1 rfl⟩

/-- C6 counterexample to the claim as stated: with an environment whose
Plan stage fails while every other stage succeeds, the pipeline runs Apply
and Verify in the same attempt, performs no repair, never rewrites
`main.tf`, and returns success — a Plan failure does not trigger the
repair-and-restart. -/
theorem C6_claim_counterexample :
    (c6PlanFailEnv.plan 0).failed = true
    ∧ (run_pipeline c6PlanFailEnv "hcl-0" "deploy" false).1
      = [PipeEv.wroteFiles "hcl-0",
         PipeEv.ranStage "validate" 0 false,
         PipeEv.ranStage "plan" 0 true,
         PipeEv.ranStage "apply" 0 false,
         PipeEv.ranStage "verify" 0 false]
    ∧ (run_pipeline c6PlanFailEnv "hcl-0" "deploy" false).2.success
        = true := by
  refine ⟨rfl, ?_, rfl⟩
  rfl
